import Mathlib

/-!
# Verification of the sun widget library's core behaviors

A shallow embedding of the behavioral core of the `sun` widget library:

* button interaction-state derivations (`PushButtonInteractionStateProperty`,
  `MomentaryButtonInteractionStateProperty`),
* the keyboard/value handling trait (`AccessibleValueHandler`): key handling,
  step rounding with floating-point overshoot correction, range clamping,
* the accessible number spinner's key-repeat timer (`AccessibleNumberSpinner`),
* `MomentaryButtonModel`, `RadioButtonGroupMember`'s accessible-checked
  bookkeeping, and `Checkbox`'s toggle listener.

JavaScript numbers are modelled as exact rationals (`ℚ`).  Observable
properties (AXON) are modelled by explicit state passing: a property `set`
notifies its listeners only when the value actually changes, which is made
explicit wherever a listener cascade matters.
-/

namespace Sun

/-- The four interaction states derived for button views. -/
inductive InteractionState where
  | idle
  | over
  | pressed
  | disabled
deriving DecidableEq, Repr

/-- The `PushButtonInteractionStateProperty`'s derivation
(src/js/buttons/PushButtonInteractionStateProperty.js):
`!enabled ? 'disabled' : over && !down ? 'over' : over && down ? 'pressed' : 'idle'`. -/
def pushButtonInteractionState (over down enabled : Bool) : InteractionState :=
  if !enabled then .disabled
  else if over && !down then .over
  else if over && down then .pressed
  else .idle

/-- The `MomentaryButtonInteractionStateProperty`'s derivation
(src/js/buttons/MomentaryButtonModel.js):
`!enabled ? 'disabled' : over && !down ? 'over' : down ? 'pressed' : 'idle'`. -/
def momentaryButtonInteractionState (over down enabled : Bool) : InteractionState :=
  if !enabled then .disabled
  else if over && !down then .over
  else if down then .pressed
  else .idle

/-- The interaction-state precedence exactly as the specification words it
(for comparison with the derivations above): disabled > pressed > over > idle,
with `disabled` whenever not enabled, otherwise `pressed` whenever down,
otherwise `over` whenever over, otherwise `idle`. -/
def specPrecedenceInteractionState (over down enabled : Bool) : InteractionState :=
  if !enabled then .disabled
  else if down then .pressed
  else if over then .over
  else .idle

/-! ## DOT utility functions

`DOT/Util` is an external dependency of this repository; the three functions
used by `AccessibleValueHandler` are modelled by their documented behavior:
`clamp` limits a value to `[min, max]`, `roundSymmetric` rounds half away from
zero (`(value < 0 ? -1 : 1) * Math.round(Math.abs(value))`), and
`equalsEpsilon` is `Math.abs(a - b) <= epsilon`. -/

/-- The `Util.clamp( value, min, max )`. -/
def clamp (value min max : ℚ) : ℚ :=
  if value < min then min
  else if value > max then max
  else value

/-- The `Util.roundSymmetric( value )`: round half away from zero. -/
def roundSymmetric (value : ℚ) : ℤ :=
  (if value < 0 then -1 else 1) * ⌊|value| + 1/2⌋

/-- The `Util.equalsEpsilon( a, b, epsilon )`. -/
def equalsEpsilon (a b epsilon : ℚ) : Bool :=
  |a - b| ≤ epsilon

/-! ## Step rounding (AccessibleValueHandler module-scope helpers) -/

/-- The epsilon used by `correctRounding`, the JS literal `1e-14`. -/
def roundingEpsilon : ℚ := 1 / 10 ^ 14

/-- The `correctRounding( newValue, currentValue, stepSize )`: step back if the
rounding went more than one step away from the current value, unless the
overshoot is within floating-point tolerance of one step. -/
def correctRounding (newValue currentValue stepSize : ℚ) : ℚ :=
  let proposedStep := |newValue - currentValue|
  let stepToFar := proposedStep > stepSize
  let stepsAboutEqual := equalsEpsilon proposedStep stepSize roundingEpsilon
  if stepToFar ∧ stepsAboutEqual = false then
    newValue + (if newValue > currentValue then -stepSize else stepSize)
  else newValue

/-- The `roundValue( newValue, currentValue, stepSize )`: round to the nearest
multiple of the step size, then correct a rounding overshoot. -/
def roundValue (newValue currentValue stepSize : ℚ) : ℚ :=
  if stepSize ≠ 0 then
    correctRounding ((roundSymmetric (newValue / stepSize) : ℚ) * stepSize)
      currentValue stepSize
  else newValue

/-! ## Keyboard utilities

`SCENERY/accessibility/KeyboardUtil` is an external dependency; its key-code
constants and the `isArrowKey`/`isRangeKey` predicates used here are modelled
by their standard DOM key codes. -/

def KEY_SHIFT : Nat := 16
def KEY_PAGE_UP : Nat := 33
def KEY_PAGE_DOWN : Nat := 34
def KEY_END : Nat := 35
def KEY_HOME : Nat := 36
def KEY_LEFT_ARROW : Nat := 37
def KEY_UP_ARROW : Nat := 38
def KEY_RIGHT_ARROW : Nat := 39
def KEY_DOWN_ARROW : Nat := 40

/-- The `KeyboardUtil.isArrowKey`. -/
def isArrowKey (keyCode : Nat) : Bool :=
  keyCode == KEY_LEFT_ARROW || keyCode == KEY_UP_ARROW ||
  keyCode == KEY_RIGHT_ARROW || keyCode == KEY_DOWN_ARROW

/-- The `KeyboardUtil.isRangeKey`: arrow keys, page up/down, home and end. -/
def isRangeKey (keyCode : Nat) : Bool :=
  isArrowKey keyCode || keyCode == KEY_PAGE_UP || keyCode == KEY_PAGE_DOWN ||
  keyCode == KEY_HOME || keyCode == KEY_END

/-! ## AccessibleValueHandler state

The trait's instance fields that the keyboard/input handlers read and write
(src/js/accessibility/AccessibleValueHandler.js).  The `constrainValue`
option is fixed to its default `_.identity`, as in the claims under study.
`rangeKeysDown` (a JS object mapping key codes to booleans) is modelled as
the list of key codes currently mapped to `true`.  The emitters
(`attemptedIncreaseEmitter`, `attemptedDecreaseEmitter`) and the
`startChange`/`endChange` callbacks are modelled by invocation counters. -/

structure KeyEvent where
  keyCode : Nat
  shiftKey : Bool
deriving DecidableEq, Repr

structure AVHState where
  value : ℚ
  rangeMin : ℚ
  rangeMax : ℚ
  enabled : Bool
  keyboardStep : ℚ
  shiftKeyboardStep : ℚ
  pageKeyboardStep : ℚ
  roundToStepSize : Bool
  shiftKey : Bool
  blockInput : Bool
  a11yInputHandled : Bool
  rangeKeysDown : List Nat
  attemptedIncreaseCount : Nat
  attemptedDecreaseCount : Nat
  startChangeCount : Nat
  endChangeCount : Nat
deriving DecidableEq, Repr

/-- The default `constrainValue` option, `_.identity`. -/
def constrainValue (v : ℚ) : ℚ := v

/-- The `this.rangeKeysDown[ code ] = true`. -/
def insertKey (code : Nat) (keys : List Nat) : List Nat :=
  if code ∈ keys then keys else code :: keys

/-- The `anyKeysDown()`: some entry of `rangeKeysDown` is true. -/
def anyKeysDown (s : AVHState) : Bool :=
  !s.rangeKeysDown.isEmpty

/-- The `allKeysUp()`: every entry of `rangeKeysDown` is false. -/
def allKeysUp (s : AVHState) : Bool :=
  s.rangeKeysDown.isEmpty

/-- The `this._valueProperty.set( this._constrainValue( newValue ) )`. -/
def setConstrainedValue (s : AVHState) (newValue : ℚ) : AVHState :=
  { s with value := constrainValue newValue }

/-- The optional rounding applied on the arrow-key paths:
`if ( this.roundToStepSize ) { newValue = roundValue( newValue, value, stepSize ); }`. -/
def maybeRound (s : AVHState) (newValue stepSize : ℚ) : ℚ :=
  if s.roundToStepSize then roundValue newValue s.value stepSize else newValue

/-- Commit used on the page-key/arrow-key paths: clamp to the enabled range,
constrain, and set. -/
def setClampedValue (s : AVHState) (newValue : ℚ) : AVHState :=
  setConstrainedValue s (clamp newValue s.rangeMin s.rangeMax)

/-- The `handleKeyDown( event )`. -/
def handleKeyDown (s0 : AVHState) (ev : KeyEvent) : AVHState :=
  let s1 := { s0 with shiftKey := ev.shiftKey, blockInput := true }
  if s1.enabled then
    if isRangeKey ev.keyCode then
      -- if this is the first keydown this is the start of the drag interaction
      let s2 := if !anyKeysDown s1 then
          { s1 with startChangeCount := s1.startChangeCount + 1 }
        else s1
      -- track that a new key is being held down
      let s3 := { s2 with rangeKeysDown := insertKey ev.keyCode s2.rangeKeysDown }
      if ev.keyCode == KEY_END || ev.keyCode == KEY_HOME then
        -- snap to max and min of the enabled range (not clamped by the code)
        if ev.keyCode == KEY_END then
          setConstrainedValue
            { s3 with attemptedIncreaseCount := s3.attemptedIncreaseCount + 1 } s3.rangeMax
        else
          setConstrainedValue
            { s3 with attemptedDecreaseCount := s3.attemptedDecreaseCount + 1 } s3.rangeMin
      else if ev.keyCode == KEY_PAGE_UP then
        setClampedValue
          { s3 with attemptedIncreaseCount := s3.attemptedIncreaseCount + 1 }
          (s3.value + s3.pageKeyboardStep)
      else if ev.keyCode == KEY_PAGE_DOWN then
        setClampedValue
          { s3 with attemptedDecreaseCount := s3.attemptedDecreaseCount + 1 }
          (s3.value - s3.pageKeyboardStep)
      else if isArrowKey ev.keyCode then
        let stepSize := if ev.shiftKey then s3.shiftKeyboardStep else s3.keyboardStep
        if ev.keyCode == KEY_RIGHT_ARROW || ev.keyCode == KEY_UP_ARROW then
          setClampedValue
            { s3 with attemptedIncreaseCount := s3.attemptedIncreaseCount + 1 }
            (maybeRound s3 (s3.value + stepSize) stepSize)
        else if ev.keyCode == KEY_LEFT_ARROW || ev.keyCode == KEY_DOWN_ARROW then
          setClampedValue
            { s3 with attemptedDecreaseCount := s3.attemptedDecreaseCount + 1 }
            (maybeRound s3 (s3.value - stepSize) stepSize)
        else
          setClampedValue s3 (maybeRound s3 s3.value stepSize)
      else
        setClampedValue s3 s3.value
    else s1
  else s1

/-- The `handleKeyUp( event )`. -/
def handleKeyUp (s0 : AVHState) (ev : KeyEvent) : AVHState :=
  -- handle case where user tabbed to this input while an arrow key was held
  if allKeysUp s0 then s0
  else
    let s1 := if ev.keyCode == KEY_SHIFT then { s0 with shiftKey := false } else s0
    if s1.enabled then
      if isRangeKey ev.keyCode then
        let s2 := { s1 with rangeKeysDown := s1.rangeKeysDown.erase ev.keyCode }
        -- when all range keys are released, we are done dragging
        if allKeysUp s2 then { s2 with endChangeCount := s2.endChangeCount + 1 }
        else s2
      else s1
    else s1

/-- The `handleInput( event )`; `inputValue` is `event.domEvent.target.value`. -/
def handleInput (s0 : AVHState) (inputValue : ℚ) : AVHState :=
  if s0.enabled && !s0.blockInput then
    -- don't handle again on "change" event
    let s1 := { s0 with a11yInputHandled := true }
    let stepSize := if s1.shiftKey then s1.shiftKeyboardStep else s1.keyboardStep
    -- start of change event is start of drag
    let s2 := { s1 with startChangeCount := s1.startChangeCount + 1 }
    let s3 :=
      if inputValue > s2.value then
        setClampedValue
          { s2 with attemptedIncreaseCount := s2.attemptedIncreaseCount + 1 }
          (maybeRound s2 (s2.value + stepSize) stepSize)
      else if inputValue < s2.value then
        setClampedValue
          { s2 with attemptedDecreaseCount := s2.attemptedDecreaseCount + 1 }
          (maybeRound s2 (s2.value - stepSize) stepSize)
      else
        setClampedValue s2 (maybeRound s2 s2.value stepSize)
    -- end of change is the end of a drag
    { s3 with endChangeCount := s3.endChangeCount + 1 }
  else s0

/-- The `handleChange( event )`. -/
def handleChange (s0 : AVHState) (inputValue : ℚ) : AVHState :=
  let s1 := if !s0.a11yInputHandled then handleInput s0 inputValue else s0
  { s1 with a11yInputHandled := false }

/-- The `handleBlur()`. -/
def handleBlur (s0 : AVHState) : AVHState :=
  let s1 := if anyKeysDown s0 then { s0 with endChangeCount := s0.endChangeCount + 1 }
    else s0
  { s1 with shiftKey := false, rangeKeysDown := [] }

/-! ## Keyboard-step setters

Each setter asserts that the given step is non-negative and stores it; the
assertion failure is modelled as `Except.error`. -/

/-- The `setKeyboardStep( keyboardStep )`. -/
def setKeyboardStep (s : AVHState) (keyboardStep : ℚ) : Except String AVHState :=
  if 0 ≤ keyboardStep then .ok { s with keyboardStep := keyboardStep }
  else .error "keyboard step must be non-negative"

/-- The `setShiftKeyboardStep( shiftKeyboardStep )`. -/
def setShiftKeyboardStep (s : AVHState) (shiftKeyboardStep : ℚ) : Except String AVHState :=
  if 0 ≤ shiftKeyboardStep then .ok { s with shiftKeyboardStep := shiftKeyboardStep }
  else .error "shift keyboard step must be non-negative"

/-- The `setPageKeyboardStep( pageKeyboardStep )`. -/
def setPageKeyboardStep (s : AVHState) (pageKeyboardStep : ℚ) : Except String AVHState :=
  if 0 ≤ pageKeyboardStep then .ok { s with pageKeyboardStep := pageKeyboardStep }
  else .error "page keyboard step must be non-negative"

/-- The step-size initialization performed by
`initializeAccessibleValueHandler`: the three setters applied in order to the
(possibly defaulted) option values. -/
def initializeSteps (s : AVHState) (keyboardStep shiftKeyboardStep pageKeyboardStep : ℚ) :
    Except String AVHState := do
  let s ← setKeyboardStep s keyboardStep
  let s ← setShiftKeyboardStep s shiftKeyboardStep
  setPageKeyboardStep s pageKeyboardStep

/-! ## RadioButtonGroupMember's accessible-checked bookkeeping

Each member registers `accessibleCheckedListener` on the shared selection
property: `self.accessibleChecked = newValue === value;`.  Setting the
selection property to `X` therefore runs that listener on every member of the
group. -/

structure RadioMember (V : Type) where
  value : V
  accessibleChecked : Bool

/-- The effect on every group member of setting the shared selection property
to `newValue`: each member's `accessibleCheckedListener` runs. -/
def radioSetGroupValue {V : Type} [DecidableEq V] (newValue : V)
    (members : List (RadioMember V)) : List (RadioMember V) :=
  members.map fun m => { m with accessibleChecked := newValue == m.value }

/-! ## MomentaryButtonModel

State: the shared `valueProperty`, the button's `downProperty` and
`enabledProperty` (src/js/buttons/MomentaryButtonModel.js).  AXON property
semantics: a `set` notifies listeners only when the value changes.
`downProperty.lazyLink( downListener )` turns the value on when pressed (if
enabled) and off when released; `valueProperty.link( valuePropertyListener )`
sets `downProperty` to `value === valueOn`.  The resulting listener cascade is
modelled by mutual recursion on a fuel parameter; the actual cascades are
short, and the exported operations use fuel 6, which is never exhausted in the
reachable cases. -/

structure MomentaryState (V : Type) where
  value : V
  down : Bool
  enabled : Bool

mutual

/-- The `valueProperty.set( v )` together with `valuePropertyListener`. -/
def momSetValue {V : Type} [DecidableEq V] (valueOff valueOn : V) :
    Nat → MomentaryState V → V → MomentaryState V
  | 0, s, _ => s
  | fuel + 1, s, v =>
    if s.value = v then s
    else momSetDown valueOff valueOn fuel { s with value := v } (v == valueOn)

/-- The `downProperty.set( d )` together with `downListener` (lazyLink: the
listener fires only on change). -/
def momSetDown {V : Type} [DecidableEq V] (valueOff valueOn : V) :
    Nat → MomentaryState V → Bool → MomentaryState V
  | 0, s, _ => s
  | fuel + 1, s, d =>
    if s.down = d then s
    else
      let s' := { s with down := d }
      if d then
        -- turn on when pressed (if enabled)
        if s'.enabled then momSetValue valueOff valueOn fuel s' valueOn else s'
      else momSetValue valueOff valueOn fuel s' valueOff

end

/-- A press/release driven through `downProperty` (what the button view does). -/
def momentaryUserSetDown {V : Type} [DecidableEq V] (valueOff valueOn : V)
    (s : MomentaryState V) (down : Bool) : MomentaryState V :=
  momSetDown valueOff valueOn 6 s down

/-- An external set of `valueProperty`. -/
def momentaryExternalSetValue {V : Type} [DecidableEq V] (valueOff valueOn : V)
    (s : MomentaryState V) (v : V) : MomentaryState V :=
  momSetValue valueOff valueOn 6 s v

/-! ## Checkbox's button listener

`checkboxButtonListener.fire`: when enabled, toggles the bound boolean
property through `toggleAction` (which performs `property.value = value`);
when disabled it does nothing (src/unnamed/part_003). -/

structure CheckboxState where
  checked : Bool
  enabled : Bool
deriving DecidableEq, Repr

/-- The `fire` callback of `checkboxButtonListener`. -/
def checkboxFire (s : CheckboxState) : CheckboxState :=
  if s.enabled then { s with checked := !s.checked } else s

/-! ## AccessibleNumberSpinner: key repetition

State of the spinner's `accessibleInputListener` closure together with its
`CallbackTimer` (src/js/accessibility/AccessibleNumberSpinner.js).

Modelled from the spec: `SUN/CallbackTimer` itself is not among the sources;
per the specification it is a repeat timer that, once started, first fires
after `delay` milliseconds and then fires at every `interval` milliseconds,
invoking its registered callbacks on each fire; `stop( false )` stops it
without firing.  Time is modelled by a 1-millisecond `spinnerTick` step;
`timerElapsed` is the time since `start()`.

`downCallback` (the bound keydown event) and `runningTimerCallbackKeyCode`
are the closure variables of the same names; `timerCallbacks` is the timer's
callback list.  The `incrementDownEmitter`/`decrementDownEmitter` emissions
are recorded as lists of the emitted booleans, most recent first. -/

structure SpinnerState where
  avh : AVHState
  timerRunning : Bool
  timerElapsed : Nat
  delay : Nat
  interval : Nat
  timerCallbacks : List KeyEvent
  downCallback : Option KeyEvent
  runningTimerCallbackKeyCode : Option Nat
  callbackFires : Nat
  incrementEmits : List Bool
  decrementEmits : List Bool

/-- The `emitKeyState( keyCode, isDown )`. -/
def emitKeyState (s : SpinnerState) (keyCode : Nat) (isDown : Bool) : SpinnerState :=
  if keyCode == KEY_UP_ARROW || keyCode == KEY_RIGHT_ARROW then
    { s with incrementEmits := isDown :: s.incrementEmits }
  else if keyCode == KEY_DOWN_ARROW || keyCode == KEY_LEFT_ARROW then
    { s with decrementEmits := isDown :: s.decrementEmits }
  else s

/-- The `accessibleNumberSpinnerHandleKeyDown( event )`: the shared
`handleKeyDown` followed by `emitKeyState( keyCode, true )`. -/
def spinnerHandleKeyDown (s : SpinnerState) (ev : KeyEvent) : SpinnerState :=
  emitKeyState { s with avh := handleKeyDown s.avh ev } ev.keyCode true

/-- The `keydown` branch of `accessibleInputListener`: on a range key while
enabled, if the timer is not running, handle the key once, register the bound
callback and start the timer. -/
def spinnerKeydown (s : SpinnerState) (ev : KeyEvent) : SpinnerState :=
  if s.avh.enabled then
    if isRangeKey ev.keyCode then
      if !s.timerRunning then
        let s1 := spinnerHandleKeyDown s ev
        { s1 with
          downCallback := some ev
          runningTimerCallbackKeyCode := some ev.keyCode
          timerCallbacks := s1.timerCallbacks ++ [ev]
          timerRunning := true
          timerElapsed := 0 }
      else s
    else s
  else s

/-- The `removeCallback( downCallback )` on the timer's callback list. -/
def removeCallback (callbacks : List KeyEvent) : Option KeyEvent → List KeyEvent
  | some cb => callbacks.erase cb
  | none => callbacks

/-- The `keyup` branch of `accessibleInputListener`: if the released key is
the one driving the timer, emit its key state, stop the timer and deregister
the callback; in any case forward to `handleKeyUp`. -/
def spinnerKeyup (s : SpinnerState) (ev : KeyEvent) : SpinnerState :=
  if isRangeKey ev.keyCode then
    let s1 :=
      if s.runningTimerCallbackKeyCode == some ev.keyCode then
        let s' := emitKeyState s ev.keyCode false
        { s' with
          timerRunning := false
          timerCallbacks := removeCallback s'.timerCallbacks s'.downCallback
          downCallback := none
          runningTimerCallbackKeyCode := none }
      else s
    { s1 with avh := handleKeyUp s1.avh ev }
  else s

/-- The `blur` branch of `accessibleInputListener`: if a key is down when
focus leaves, emit that it is up, stop the timer and remove its callback
(the closure variables themselves are not cleared by the code); then forward
to `handleBlur`. -/
def spinnerBlur (s : SpinnerState) : SpinnerState :=
  let s1 :=
    match s.downCallback with
    | some cb =>
      let s' :=
        match s.runningTimerCallbackKeyCode with
        | some code => emitKeyState s code false
        | none => s
      { s' with
        timerRunning := false
        timerCallbacks := s'.timerCallbacks.erase cb }
    | none => s
  { s1 with avh := handleBlur s1.avh }

/-- One millisecond of time for a running timer.  Modelled from the spec: the
timer fires when the time since `start()` reaches `delay` and at every
`interval` thereafter; each fire invokes the registered callbacks in order. -/
def spinnerTick (s : SpinnerState) : SpinnerState :=
  if s.timerRunning then
    let e := s.timerElapsed + 1
    let s1 := { s with timerElapsed := e }
    if s1.delay ≤ e ∧ (e - s1.delay) % s1.interval = 0 then
      { s1.timerCallbacks.foldl spinnerHandleKeyDown s1 with
        callbackFires := s1.callbackFires + 1 }
    else s1
  else s

/-- The `n` milliseconds of time. -/
def spinnerTicks : Nat → SpinnerState → SpinnerState
  | 0, s => s
  | n + 1, s => spinnerTick (spinnerTicks n s)

/-- The number of timer fires within the first `n` milliseconds after
`start()`: fires happen at `delay`, `delay + interval`,
`delay + 2 * interval`, .... -/
def timerFireCount (delay interval n : Nat) : Nat :=
  if n < delay then 0 else (n - delay) / interval + 1

/-- The arrow-key commit sequence exactly as the claim words it (for
comparison with `handleKeyDown`): the candidate is first clamped to the
enabled range and then rounded to the nearest multiple of the step size. -/
def claimedArrowCommit (s : AVHState) (candidate stepSize : ℚ) : ℚ :=
  roundValue (clamp candidate s.rangeMin s.rangeMax) s.value stepSize

/-- A concrete `AVHState` used for counterexamples and witnesses: value 8 in
the enabled range [0, 10] with keyboard step 4 and rounding enabled. -/
def exampleState : AVHState where
  value := 8
  rangeMin := 0
  rangeMax := 10
  enabled := true
  keyboardStep := 4
  shiftKeyboardStep := 1
  pageKeyboardStep := 2
  roundToStepSize := true
  shiftKey := false
  blockInput := false
  a11yInputHandled := false
  rangeKeysDown := []
  attemptedIncreaseCount := 0
  attemptedDecreaseCount := 0
  startChangeCount := 0
  endChangeCount := 0

/-! ## Helper lemmas -/

/-- The `clamp` lands in `[min, max]` whenever the range is non-degenerate. -/
theorem clamp_mem (value min max : ℚ) (h : min ≤ max) :
    min ≤ clamp value min max ∧ clamp value min max ≤ max := by
  unfold clamp
  split_ifs with h1 h2 <;> constructor <;> linarith

/-- The `roundValue` with a non-zero step, unfolded. -/
theorem roundValue_eq (newValue currentValue stepSize : ℚ) (h : stepSize ≠ 0) :
    roundValue newValue currentValue stepSize =
      correctRounding ((roundSymmetric (newValue / stepSize) : ℚ) * stepSize)
        currentValue stepSize := by
  unfold roundValue
  rw [if_pos h]

/-- The `roundSymmetric` at a non-negative value between `z - 1/2` and `z + 1/2`. -/
theorem roundSymmetric_nonneg_eq (x : ℚ) (z : ℤ) (h1 : 0 ≤ x)
    (h2 : (z : ℚ) ≤ x + 1/2) (h3 : x + 1/2 < z + 1) :
    roundSymmetric x = z := by
  unfold roundSymmetric
  rw [if_neg (not_lt.mpr h1), abs_of_nonneg h1, one_mul]
  exact Int.floor_eq_iff.mpr ⟨h2, h3⟩

/-- The `roundSymmetric` fixes the integers. -/
theorem roundSymmetric_intCast (k : ℤ) : roundSymmetric (k : ℚ) = k := by
  unfold roundSymmetric
  have habs : |(k : ℚ)| = ((|k| : ℤ) : ℚ) := by push_cast; ring
  have hfl : ⌊((|k| : ℤ) : ℚ) + 1/2⌋ = |k| := by
    rw [add_comm, Int.floor_add_int]
    norm_num [Int.floor_eq_zero_iff]
  rcases lt_or_ge k 0 with h | h
  · rw [if_pos (by exact_mod_cast h), habs, hfl, abs_of_neg h]
    ring
  · rw [if_neg (by exact_mod_cast not_lt.mpr h), habs, hfl, abs_of_nonneg h,
      one_mul]

/-- The `roundSymmetric` is within a half of its argument. -/
theorem roundSymmetric_sub_abs_le (x : ℚ) : |((roundSymmetric x : ℤ) : ℚ) - x| ≤ 1/2 := by
  unfold roundSymmetric
  have h1 := Int.floor_le (|x| + 1/2)
  have h2 := Int.lt_floor_add_one (|x| + 1/2)
  rcases lt_or_ge x 0 with h | h
  · rw [if_pos h, abs_of_neg h] at *
    rw [abs_le]
    push_cast at *
    constructor <;> linarith
  · rw [if_neg (not_lt.mpr h), abs_of_nonneg h] at *
    rw [abs_le]
    push_cast at *
    constructor <;> linarith

/-- The `correctRounding` without an overshoot correction. -/
theorem correctRounding_no_step (newValue currentValue stepSize : ℚ)
    (h : ¬ |newValue - currentValue| > stepSize) :
    correctRounding newValue currentValue stepSize = newValue := by
  unfold correctRounding
  exact if_neg fun hc => h hc.1

/-- The `correctRounding` when the epsilon comparison suppresses the correction. -/
theorem correctRounding_epsilon (newValue currentValue stepSize : ℚ)
    (h : equalsEpsilon (|newValue - currentValue|) stepSize roundingEpsilon = true) :
    correctRounding newValue currentValue stepSize = newValue := by
  unfold correctRounding
  exact if_neg fun hc => by simp [h] at hc

/-- The `correctRounding` stepping back down after an overshoot. -/
theorem correctRounding_step_down (newValue currentValue stepSize : ℚ)
    (h1 : |newValue - currentValue| > stepSize)
    (h2 : equalsEpsilon (|newValue - currentValue|) stepSize roundingEpsilon = false)
    (h3 : newValue > currentValue) :
    correctRounding newValue currentValue stepSize = newValue - stepSize := by
  unfold correctRounding
  rw [if_pos ⟨h1, h2⟩, if_pos h3]
  ring

/-- The `correctRounding` stepping back up after an undershoot. -/
theorem correctRounding_step_up (newValue currentValue stepSize : ℚ)
    (h1 : |newValue - currentValue| > stepSize)
    (h2 : equalsEpsilon (|newValue - currentValue|) stepSize roundingEpsilon = false)
    (h3 : ¬ newValue > currentValue) :
    correctRounding newValue currentValue stepSize = newValue + stepSize := by
  unfold correctRounding
  rw [if_pos ⟨h1, h2⟩, if_neg h3]

/-- The `equalsEpsilon` evaluated to `false`. -/
theorem equalsEpsilon_false (a b epsilon : ℚ) (h : ¬ |a - b| ≤ epsilon) :
    equalsEpsilon a b epsilon = false := by
  unfold equalsEpsilon
  exact decide_eq_false h

/-- The `correctRounding` is the identity whenever its correction condition
fails. -/
theorem correctRounding_id (newValue currentValue stepSize : ℚ)
    (h : ¬ (|newValue - currentValue| > stepSize ∧
        equalsEpsilon (|newValue - currentValue|) stepSize roundingEpsilon = false)) :
    correctRounding newValue currentValue stepSize = newValue := by
  unfold correctRounding
  exact if_neg h

/-- The `clamp` below the range. -/
theorem clamp_eq_min (value min max : ℚ) (h : value < min) :
    clamp value min max = min := by
  unfold clamp
  rw [if_pos h]

/-- The `clamp` above the range. -/
theorem clamp_eq_max (value min max : ℚ) (h1 : ¬ value < min) (h2 : value > max) :
    clamp value min max = max := by
  unfold clamp
  rw [if_neg h1, if_pos h2]

/-- The `clamp` inside the range. -/
theorem clamp_eq_self (value min max : ℚ) (h1 : ¬ value < min) (h2 : ¬ value > max) :
    clamp value min max = value := by
  unfold clamp
  rw [if_neg h1, if_neg h2]

/-- The eight key codes recognized by `isRangeKey`. -/
theorem isRangeKey_cases {c : Nat} (h : isRangeKey c = true) :
    c = KEY_PAGE_UP ∨ c = KEY_PAGE_DOWN ∨ c = KEY_END ∨ c = KEY_HOME ∨
    c = KEY_LEFT_ARROW ∨ c = KEY_UP_ARROW ∨ c = KEY_RIGHT_ARROW ∨ c = KEY_DOWN_ARROW := by
  simp only [isRangeKey, isArrowKey, KEY_PAGE_UP, KEY_PAGE_DOWN, KEY_END, KEY_HOME,
    KEY_LEFT_ARROW, KEY_UP_ARROW, KEY_RIGHT_ARROW, KEY_DOWN_ARROW,
    Bool.or_eq_true, beq_iff_eq] at h
  tauto

/-! ## Claim C1: interaction-state precedence -/

/-- C1, counterexample: the push-button derivation does not follow the
claimed precedence `disabled > pressed > over > idle`.  At
`(over, down, enabled) = (false, true, true)` the claimed precedence yields
`pressed`, but `PushButtonInteractionStateProperty` yields `idle`. -/
theorem pushButton_state_precedence_counterexample :
    pushButtonInteractionState false true true = .idle ∧
    specPrecedenceInteractionState false true true = .pressed ∧
    pushButtonInteractionState false true true ≠
      specPrecedenceInteractionState false true true := by
  decide

/-- C1, amended: the momentary-button derivation follows the claimed
precedence `disabled > pressed > over > idle` at every input; the push-button
derivation agrees with that precedence except when the button is down but the
pointer is not over it (while enabled), where it yields `idle` instead of
`pressed` (pressed requires both over and down). -/
theorem interactionState_precedence (over down enabled : Bool) :
    momentaryButtonInteractionState over down enabled =
      specPrecedenceInteractionState over down enabled ∧
    pushButtonInteractionState over down enabled =
      (if !over && down && enabled then .idle
       else specPrecedenceInteractionState over down enabled) := by
  revert over down enabled
  decide

/-! ## Claim C10: checkbox toggle -/

/-- C10: firing the Checkbox's button listener while enabled negates the
bound boolean property (two consecutive fires restore the original value);
firing while disabled leaves the state unchanged. -/
theorem checkbox_fire_toggles (s : CheckboxState) :
    (s.enabled = true →
      (checkboxFire s).checked = !s.checked ∧
      (checkboxFire (checkboxFire s)).checked = s.checked) ∧
    (s.enabled = false → checkboxFire s = s) := by
  obtain ⟨c, e⟩ := s
  cases e <;> simp [checkboxFire]

/-- C10, witness: the toggle behavior at the concrete state
(checked := false, enabled := true). -/
theorem checkbox_fire_toggles_witness :
    (checkboxFire ⟨false, true⟩).checked = !false ∧
    (checkboxFire (checkboxFire ⟨false, true⟩)).checked = false :=
  (checkbox_fire_toggles ⟨false, true⟩).1 rfl

/-! ## Claim C5: radio-group accessible-checked invariant -/

/-- Helper: after a group selection, the number of checked members equals the
number of members whose candidate value is the selected one. -/
theorem radioSetGroupValue_filter_length {V : Type} [DecidableEq V] (newValue : V)
    (members : List (RadioMember V)) :
    ((radioSetGroupValue newValue members).filter
        (fun m => m.accessibleChecked)).length =
      members.countP (fun m => newValue == m.value) := by
  induction members with
  | nil => rfl
  | cons m rest ih =>
    simp only [radioSetGroupValue, List.map_cons, List.filter_cons, List.countP_cons] at *
    by_cases h : newValue == m.value
    · simp [h, ih]
    · simp [h, ih]

/-- C5: after the shared selection property is set to `X`, every member's
`accessibleChecked` flag equals `X == value`; with pairwise-distinct
candidate values one of which is `X`, exactly one member reports checked. -/
theorem radio_group_checked (V : Type) [DecidableEq V] (X : V)
    (members : List (RadioMember V)) :
    (∀ m ∈ radioSetGroupValue X members, m.accessibleChecked = (X == m.value)) ∧
    ((members.map RadioMember.value).Nodup → X ∈ members.map RadioMember.value →
      ((radioSetGroupValue X members).filter
          (fun m => m.accessibleChecked)).length = 1) := by
  constructor
  · intro m hm
    simp only [radioSetGroupValue, List.mem_map] at hm
    obtain ⟨m', _, rfl⟩ := hm
    rfl
  · intro hnd hmem
    rw [radioSetGroupValue_filter_length]
    induction members with
    | nil => simp at hmem
    | cons m rest ih =>
      simp only [List.map_cons, List.nodup_cons] at hnd
      simp only [List.map_cons, List.mem_cons] at hmem
      simp only [List.countP_cons]
      rcases hmem with h | h
      · have h0 : rest.countP (fun m => X == m.value) = 0 := by
          rw [List.countP_eq_zero]
          intro m' hm'
          simp only [beq_iff_eq]
          intro hx
          exact hnd.1 (h ▸ hx ▸ List.mem_map_of_mem RadioMember.value hm')
        simp [h0, h.symm]
      · have hne : (X == m.value) = false := by
          simp only [beq_eq_false_iff_ne, ne_eq]
          intro hx
          exact hnd.1 (hx ▸ h)
        simp [hne, ih hnd.2 h]

/-- C5, witness: a three-member group over ℕ with values 1, 2, 3 after
selecting 2 has exactly one checked member. -/
theorem radio_group_checked_witness :
    ((radioSetGroupValue 2 [⟨1, false⟩, ⟨2, false⟩, (⟨3, false⟩ : RadioMember ℕ)]).filter
        (fun m => m.accessibleChecked)).length = 1 :=
  (radio_group_checked ℕ 2 [⟨1, false⟩, ⟨2, false⟩, ⟨3, false⟩]).2
    (by decide) (by decide)

/-! ## Claim C6: step-size setters fail fast exactly on negative steps -/

/-- C6: each keyboard-step setter succeeds exactly when the given step is
non-negative, stores exactly the given value on success, and the step-size
initialization only produces states whose three stored step sizes are
non-negative. -/
theorem step_setters_nonneg :
    (∀ (s : AVHState) (step : ℚ),
      ((setKeyboardStep s step).isOk = true ↔ 0 ≤ step) ∧
      (∀ s', setKeyboardStep s step = .ok s' → s'.keyboardStep = step)) ∧
    (∀ (s : AVHState) (step : ℚ),
      ((setShiftKeyboardStep s step).isOk = true ↔ 0 ≤ step) ∧
      (∀ s', setShiftKeyboardStep s step = .ok s' → s'.shiftKeyboardStep = step)) ∧
    (∀ (s : AVHState) (step : ℚ),
      ((setPageKeyboardStep s step).isOk = true ↔ 0 ≤ step) ∧
      (∀ s', setPageKeyboardStep s step = .ok s' → s'.pageKeyboardStep = step)) ∧
    (∀ (s : AVHState) (k sk pk : ℚ) (s' : AVHState),
      initializeSteps s k sk pk = .ok s' →
      0 ≤ s'.keyboardStep ∧ 0 ≤ s'.shiftKeyboardStep ∧ 0 ≤ s'.pageKeyboardStep) := by
  refine ⟨?_, ?_, ?_, ?_⟩
  · intro s step
    unfold setKeyboardStep
    split_ifs with h <;> simp [Except.isOk, Except.toBool, h]
  · intro s step
    unfold setShiftKeyboardStep
    split_ifs with h <;> simp [Except.isOk, Except.toBool, h]
  · intro s step
    unfold setPageKeyboardStep
    split_ifs with h <;> simp [Except.isOk, Except.toBool, h]
  · intro s k sk pk s' hinit
    unfold initializeSteps setKeyboardStep setShiftKeyboardStep setPageKeyboardStep at hinit
    split_ifs at hinit with h1 h2 h3 <;>
      simp only [bind, Except.bind] at hinit
    · injection hinit with h
      subst h
      exact ⟨h1, h2, h3⟩
    all_goals cases hinit

/-- C6, witness: initialization with steps (3, 1, 5) succeeds and the
resulting stored steps are non-negative. -/
theorem step_setters_nonneg_witness :
    0 ≤ ({ exampleState with
            keyboardStep := 3, shiftKeyboardStep := 1,
            pageKeyboardStep := 5 } : AVHState).keyboardStep ∧
    0 ≤ ({ exampleState with
            keyboardStep := 3, shiftKeyboardStep := 1,
            pageKeyboardStep := 5 } : AVHState).shiftKeyboardStep ∧
    0 ≤ ({ exampleState with
            keyboardStep := 3, shiftKeyboardStep := 1,
            pageKeyboardStep := 5 } : AVHState).pageKeyboardStep :=
  step_setters_nonneg.2.2.2 exampleState 3 1 5 _ rfl

/-! ## Claim C8: disabled handlers do not touch the value or the emitters -/

/-- C8: when `enabledProperty` is false, `handleKeyDown`, `handleInput` and
`handleChange` leave the value unchanged and emit no attempted-increase or
attempted-decrease events, for every key event and input value. -/
theorem disabled_handlers_frame (s : AVHState) (ev : KeyEvent) (inputValue : ℚ)
    (h : s.enabled = false) :
    ((handleKeyDown s ev).value = s.value ∧
      (handleKeyDown s ev).attemptedIncreaseCount = s.attemptedIncreaseCount ∧
      (handleKeyDown s ev).attemptedDecreaseCount = s.attemptedDecreaseCount) ∧
    (handleInput s inputValue = s) ∧
    ((handleChange s inputValue).value = s.value ∧
      (handleChange s inputValue).attemptedIncreaseCount = s.attemptedIncreaseCount ∧
      (handleChange s inputValue).attemptedDecreaseCount = s.attemptedDecreaseCount) := by
  have hki : handleInput s inputValue = s := by
    unfold handleInput
    simp [h]
  refine ⟨?_, hki, ?_⟩
  · unfold handleKeyDown
    simp [h]
  · unfold handleChange
    by_cases ha : s.a11yInputHandled <;> simp [ha, hki]

/-- C8, witness: a disabled state receiving a right-arrow keydown and an
input of 9 keeps its value 8 and its emitter counts 0. -/
theorem disabled_handlers_frame_witness :
    (handleKeyDown { exampleState with enabled := false } ⟨KEY_RIGHT_ARROW, false⟩).value =
      ({ exampleState with enabled := false } : AVHState).value ∧
    handleInput { exampleState with enabled := false } 9 =
      { exampleState with enabled := false } :=
  ⟨(disabled_handlers_frame { exampleState with enabled := false }
      ⟨KEY_RIGHT_ARROW, false⟩ 9 rfl).1.1,
   (disabled_handlers_frame { exampleState with enabled := false }
      ⟨KEY_RIGHT_ARROW, false⟩ 9 rfl).2.1⟩

/-! ## Claim C2: committed values stay within the enabled range -/

/-- C2: with the default identity `constrainValue`, a keydown on any
recognized range key while enabled, and any handled `input` event, commit a
value inside the enabled range `[rangeMin, rangeMax]`. -/
theorem committed_value_in_range :
    (∀ (s : AVHState) (ev : KeyEvent),
      s.enabled = true → isRangeKey ev.keyCode = true → s.rangeMin ≤ s.rangeMax →
      s.rangeMin ≤ (handleKeyDown s ev).value ∧ (handleKeyDown s ev).value ≤ s.rangeMax) ∧
    (∀ (s : AVHState) (inputValue : ℚ),
      s.enabled = true → s.blockInput = false → s.rangeMin ≤ s.rangeMax →
      s.rangeMin ≤ (handleInput s inputValue).value ∧
        (handleInput s inputValue).value ≤ s.rangeMax) := by
  constructor
  · intro s ev hen hkey hle
    obtain ⟨c, sh⟩ := ev
    rcases isRangeKey_cases hkey with h | h | h | h | h | h | h | h <;> subst h <;>
      simp [handleKeyDown, KEY_PAGE_UP, KEY_PAGE_DOWN, KEY_END, KEY_HOME,
        KEY_LEFT_ARROW, KEY_UP_ARROW, KEY_RIGHT_ARROW, KEY_DOWN_ARROW,
        isRangeKey, isArrowKey, hen, setClampedValue, setConstrainedValue,
        constrainValue, apply_ite AVHState.value, apply_ite AVHState.rangeMin,
        apply_ite AVHState.rangeMax] <;>
      first
        | exact clamp_mem _ _ _ hle
        | exact ⟨hle, le_rfl⟩
        | exact ⟨le_rfl, hle⟩
        | exact hle
  · intro s inputValue hen hbl hle
    unfold handleInput
    simp only [hen, hbl, Bool.not_false, Bool.and_self, if_true]
    split_ifs with h1 h2 <;>
      · simp [setClampedValue, setConstrainedValue, constrainValue]
        exact clamp_mem _ _ _ hle

/-- C2, witness: from value 8 in [0, 10] with step 4 and rounding, a
right-arrow keydown and an input of 9 both commit values inside [0, 10]. -/
theorem committed_value_in_range_witness :
    (0 ≤ (handleKeyDown exampleState ⟨KEY_RIGHT_ARROW, false⟩).value ∧
      (handleKeyDown exampleState ⟨KEY_RIGHT_ARROW, false⟩).value ≤ 10) ∧
    (0 ≤ (handleInput exampleState 9).value ∧ (handleInput exampleState 9).value ≤ 10) :=
  ⟨committed_value_in_range.1 exampleState ⟨KEY_RIGHT_ARROW, false⟩ rfl rfl
      (by norm_num [exampleState]),
   committed_value_in_range.2 exampleState 9 rfl rfl (by norm_num [exampleState])⟩

/-! ## Claim C3: order of rounding and clamping on arrow keys -/

/-- Helper: the value committed by an increment arrow keydown. -/
theorem handleKeyDown_arrow_inc_value (s : AVHState) (sh : Bool) (c : Nat)
    (hen : s.enabled = true) (hc : c = KEY_UP_ARROW ∨ c = KEY_RIGHT_ARROW) :
    (handleKeyDown s ⟨c, sh⟩).value =
      clamp
        (maybeRound s (s.value + (if sh then s.shiftKeyboardStep else s.keyboardStep))
          (if sh then s.shiftKeyboardStep else s.keyboardStep))
        s.rangeMin s.rangeMax := by
  rcases hc with h | h <;> subst h <;>
    simp [handleKeyDown, KEY_PAGE_UP, KEY_PAGE_DOWN, KEY_END, KEY_HOME,
      KEY_LEFT_ARROW, KEY_UP_ARROW, KEY_RIGHT_ARROW, KEY_DOWN_ARROW,
      isRangeKey, isArrowKey, hen, maybeRound, setClampedValue,
      setConstrainedValue, constrainValue, apply_ite AVHState.value,
      apply_ite AVHState.rangeMin, apply_ite AVHState.rangeMax,
      apply_ite AVHState.roundToStepSize, apply_ite AVHState.shiftKeyboardStep,
      apply_ite AVHState.keyboardStep]

/-- Helper: the value committed by a decrement arrow keydown. -/
theorem handleKeyDown_arrow_dec_value (s : AVHState) (sh : Bool) (c : Nat)
    (hen : s.enabled = true) (hc : c = KEY_LEFT_ARROW ∨ c = KEY_DOWN_ARROW) :
    (handleKeyDown s ⟨c, sh⟩).value =
      clamp
        (maybeRound s (s.value - (if sh then s.shiftKeyboardStep else s.keyboardStep))
          (if sh then s.shiftKeyboardStep else s.keyboardStep))
        s.rangeMin s.rangeMax := by
  rcases hc with h | h <;> subst h <;>
    simp [handleKeyDown, KEY_PAGE_UP, KEY_PAGE_DOWN, KEY_END, KEY_HOME,
      KEY_LEFT_ARROW, KEY_UP_ARROW, KEY_RIGHT_ARROW, KEY_DOWN_ARROW,
      isRangeKey, isArrowKey, hen, maybeRound, setClampedValue,
      setConstrainedValue, constrainValue, apply_ite AVHState.value,
      apply_ite AVHState.rangeMin, apply_ite AVHState.rangeMax,
      apply_ite AVHState.roundToStepSize, apply_ite AVHState.shiftKeyboardStep,
      apply_ite AVHState.keyboardStep]

/-- C3, counterexample: the claimed order (clamp to the range first, then
round to the step size) disagrees with the code.  From value 8 in [0, 10]
with step 4, a right-arrow keydown commits 10 (the candidate 12 is rounded
to 12 and then clamped to 10), while clamping first and rounding second
would commit 12, outside the range. -/
theorem arrow_commit_order_counterexample :
    (handleKeyDown exampleState ⟨KEY_RIGHT_ARROW, false⟩).value = 10 ∧
    claimedArrowCommit exampleState (exampleState.value + exampleState.keyboardStep)
        exampleState.keyboardStep = 12 ∧
    (handleKeyDown exampleState ⟨KEY_RIGHT_ARROW, false⟩).value ≠
      claimedArrowCommit exampleState (exampleState.value + exampleState.keyboardStep)
        exampleState.keyboardStep := by
  have h := handleKeyDown_arrow_inc_value exampleState false KEY_RIGHT_ARROW rfl (Or.inr rfl)
  -- rounding the candidate 12 with step 4 from current value 8 keeps it at 12
  have hrs : roundSymmetric ((12 : ℚ) / 4) = 3 :=
    roundSymmetric_nonneg_eq _ 3 (by norm_num) (by norm_num) (by norm_num)
  have habs : |(12 : ℚ) - 8| = 4 := by
    rw [show (12 : ℚ) - 8 = 4 by norm_num, abs_of_nonneg (by norm_num : (0:ℚ) ≤ 4)]
  have hrv : roundValue 12 8 4 = 12 := by
    rw [roundValue_eq 12 8 4 (by norm_num), hrs,
      show ((3 : ℤ) : ℚ) * 4 = 12 by push_cast; ring]
    exact correctRounding_no_step 12 8 4 (by rw [habs]; norm_num)
  -- rounding after clamping instead: clamp 12 to 10, then round 10 up to 12
  have hrs2 : roundSymmetric ((10 : ℚ) / 4) = 3 :=
    roundSymmetric_nonneg_eq _ 3 (by norm_num) (by norm_num) (by norm_num)
  have habs2 : |(12 : ℚ) - 8| = 4 := habs
  have hrv2 : roundValue 10 8 4 = 12 := by
    rw [roundValue_eq 10 8 4 (by norm_num), hrs2,
      show ((3 : ℤ) : ℚ) * 4 = 12 by push_cast; ring]
    exact correctRounding_no_step 12 8 4 (by rw [habs2]; norm_num)
  have hclamp12 : clamp 12 0 10 = 10 :=
    clamp_eq_max 12 0 10 (by norm_num) (by norm_num)
  have hcode : (handleKeyDown exampleState ⟨KEY_RIGHT_ARROW, false⟩).value = 10 := by
    rw [h]
    show clamp (maybeRound exampleState (exampleState.value + exampleState.keyboardStep)
      exampleState.keyboardStep) exampleState.rangeMin exampleState.rangeMax = 10
    show clamp (maybeRound exampleState (8 + 4) 4) 0 10 = 10
    rw [show (8 : ℚ) + 4 = 12 by norm_num]
    show clamp (roundValue 12 8 4) 0 10 = 10
    rw [hrv, hclamp12]
  have hclaim : claimedArrowCommit exampleState
      (exampleState.value + exampleState.keyboardStep) exampleState.keyboardStep = 12 := by
    show roundValue (clamp (8 + 4) 0 10) 8 4 = 12
    rw [show (8 : ℚ) + 4 = 12 by norm_num, hclamp12, hrv2]
  refine ⟨hcode, hclaim, ?_⟩
  rw [hcode, hclaim]
  norm_num

/-- C3, amended: on an arrow-key keydown with `roundToStepSize` enabled, the
candidate value (current value plus or minus the selected step size) is first
rounded to the nearest multiple of the step size with floating-point
overshoot correction, and then clamped to the enabled range, before being
committed. -/
theorem arrow_rounds_then_clamps (s : AVHState) (ev : KeyEvent)
    (hen : s.enabled = true) (hr : s.roundToStepSize = true) :
    ((ev.keyCode = KEY_UP_ARROW ∨ ev.keyCode = KEY_RIGHT_ARROW) →
      (handleKeyDown s ev).value =
        clamp
          (roundValue
            (s.value + (if ev.shiftKey then s.shiftKeyboardStep else s.keyboardStep))
            s.value (if ev.shiftKey then s.shiftKeyboardStep else s.keyboardStep))
          s.rangeMin s.rangeMax) ∧
    ((ev.keyCode = KEY_LEFT_ARROW ∨ ev.keyCode = KEY_DOWN_ARROW) →
      (handleKeyDown s ev).value =
        clamp
          (roundValue
            (s.value - (if ev.shiftKey then s.shiftKeyboardStep else s.keyboardStep))
            s.value (if ev.shiftKey then s.shiftKeyboardStep else s.keyboardStep))
          s.rangeMin s.rangeMax) := by
  obtain ⟨c, sh⟩ := ev
  constructor <;> intro hc
  · rw [handleKeyDown_arrow_inc_value s sh c hen hc, maybeRound, hr, if_pos rfl]
  · rw [handleKeyDown_arrow_dec_value s sh c hen hc, maybeRound, hr, if_pos rfl]

/-- C3, witness: the amended order at the concrete state (value 8 in [0, 10],
step 4): the right-arrow commit equals round-then-clamp, which is 10. -/
theorem arrow_rounds_then_clamps_witness :
    (handleKeyDown exampleState ⟨KEY_RIGHT_ARROW, false⟩).value =
      clamp
        (roundValue (exampleState.value + exampleState.keyboardStep)
          exampleState.value exampleState.keyboardStep)
        exampleState.rangeMin exampleState.rangeMax :=
  (arrow_rounds_then_clamps exampleState ⟨KEY_RIGHT_ARROW, false⟩ rfl rfl).1
    (Or.inr rfl)

/-! ## Claim C4: idempotence of the step rounding -/

/-- C4, counterexample: `roundValue` is not idempotent for every value.  With
step size 1 and current value 0, rounding 5 gives 4 (the overshoot correction
pulls one step back towards the current value), and rounding 4 gives 3. -/
theorem roundValue_idempotent_counterexample :
    roundValue 5 0 1 = 4 ∧
    roundValue (roundValue 5 0 1) 0 1 = 3 ∧
    roundValue (roundValue 5 0 1) 0 1 ≠ roundValue 5 0 1 := by
  have habs5 : |(5 : ℚ) - 0| = 5 := by
    rw [show (5 : ℚ) - 0 = 5 by norm_num, abs_of_nonneg (by norm_num : (0:ℚ) ≤ 5)]
  have habs4 : |(4 : ℚ) - 0| = 4 := by
    rw [show (4 : ℚ) - 0 = 4 by norm_num, abs_of_nonneg (by norm_num : (0:ℚ) ≤ 4)]
  have h5 : roundValue 5 0 1 = 4 := by
    rw [roundValue_eq 5 0 1 (by norm_num),
      show (5 : ℚ) / 1 = ((5 : ℤ) : ℚ) by norm_num, roundSymmetric_intCast,
      show ((5 : ℤ) : ℚ) * 1 = 5 by push_cast; ring,
      correctRounding_step_down 5 0 1 (by rw [habs5]; norm_num)
        (equalsEpsilon_false _ _ _ (by rw [habs5]; norm_num [roundingEpsilon]))
        (by norm_num)]
    norm_num
  have h4 : roundValue 4 0 1 = 3 := by
    rw [roundValue_eq 4 0 1 (by norm_num),
      show (4 : ℚ) / 1 = ((4 : ℤ) : ℚ) by norm_num, roundSymmetric_intCast,
      show ((4 : ℤ) : ℚ) * 1 = 4 by push_cast; ring,
      correctRounding_step_down 4 0 1 (by rw [habs4]; norm_num)
        (equalsEpsilon_false _ _ _ (by rw [habs4]; norm_num [roundingEpsilon]))
        (by norm_num)]
    norm_num
  refine ⟨h5, by rw [h5, h4], by rw [h5, h4]; norm_num⟩

/-- C4, amended: the step-size rounding is idempotent for every candidate
value at most one step away from the current value (which covers every
candidate `current ± step` produced by the handlers): for step size s > 0 and
`|v - c| ≤ s`, `roundValue (roundValue v c s) c s = roundValue v c s`.
(For values further away, each application steps once back towards the
current value, as in the counterexample.) -/
theorem roundValue_idempotent_near (v c s : ℚ) (hs : 0 < s) (hv : |v - c| ≤ s) :
    roundValue (roundValue v c s) c s = roundValue v c s := by
  have hs0 : s ≠ 0 := ne_of_gt hs
  set k := roundSymmetric (v / s) with hk
  have hr1 : roundValue v c s = correctRounding ((k : ℚ) * s) c s :=
    roundValue_eq v c s hs0
  have hrk : |((k : ℚ)) - v / s| ≤ 1 / 2 := roundSymmetric_sub_abs_le (v / s)
  have hr1v : |(k : ℚ) * s - v| ≤ s / 2 := by
    have hev : (k : ℚ) * s - v = ((k : ℚ) - v / s) * s := by field_simp
    rw [hev, abs_mul, abs_of_pos hs]
    calc |(k : ℚ) - v / s| * s ≤ 1 / 2 * s :=
          mul_le_mul_of_nonneg_right hrk (le_of_lt hs)
      _ = s / 2 := by ring
  have hr1c : |(k : ℚ) * s - c| ≤ 3 / 2 * s := by
    calc |(k : ℚ) * s - c| ≤ |(k : ℚ) * s - v| + |v - c| := by
          have hev : (k : ℚ) * s - c = ((k : ℚ) * s - v) + (v - c) := by ring
          rw [hev]; exact abs_add _ _
      _ ≤ s / 2 + s := add_le_add hr1v hv
      _ = 3 / 2 * s := by ring
  by_cases hfar : |(k : ℚ) * s - c| > s ∧
      equalsEpsilon (|(k : ℚ) * s - c|) s roundingEpsilon = false
  · obtain ⟨hgt, heps⟩ := hfar
    by_cases hdir : (k : ℚ) * s > c
    · -- overshoot above: the first application lands on (k - 1) * s
      have heq : correctRounding ((k : ℚ) * s) c s = (k : ℚ) * s - s :=
        correctRounding_step_down _ _ _ hgt heps hdir
      have habs : |(k : ℚ) * s - c| = (k : ℚ) * s - c := abs_of_pos (sub_pos.mpr hdir)
      have hd1 : (k : ℚ) * s - c > s := by rw [habs] at hgt; exact hgt
      have hd2 : (k : ℚ) * s - c ≤ 3 / 2 * s := by rw [habs] at hr1c; exact hr1c
      have hmul : (k : ℚ) * s - s = ((k - 1 : ℤ) : ℚ) * s := by push_cast; ring
      have hdist : ¬ |((k - 1 : ℤ) : ℚ) * s - c| > s := by
        rw [not_lt, abs_le]
        push_cast
        constructor <;> linarith
      rw [hr1, heq, hmul, roundValue_eq _ c s hs0, mul_div_cancel_right₀ _ hs0,
        roundSymmetric_intCast]
      exact correctRounding_no_step _ _ _ hdist
    · -- overshoot below: the first application lands on (k + 1) * s
      have heq : correctRounding ((k : ℚ) * s) c s = (k : ℚ) * s + s :=
        correctRounding_step_up _ _ _ hgt heps hdir
      have hle : (k : ℚ) * s ≤ c := not_lt.mp hdir
      have habs : |(k : ℚ) * s - c| = c - (k : ℚ) * s := by
        rw [abs_sub_comm]
        exact abs_of_nonneg (sub_nonneg.mpr hle)
      have hd1 : c - (k : ℚ) * s > s := by rw [habs] at hgt; exact hgt
      have hd2 : c - (k : ℚ) * s ≤ 3 / 2 * s := by rw [habs] at hr1c; exact hr1c
      have hmul : (k : ℚ) * s + s = ((k + 1 : ℤ) : ℚ) * s := by push_cast; ring
      have hdist : ¬ |((k + 1 : ℤ) : ℚ) * s - c| > s := by
        rw [not_lt, abs_le]
        push_cast
        constructor <;> linarith
      rw [hr1, heq, hmul, roundValue_eq _ c s hs0, mul_div_cancel_right₀ _ hs0,
        roundSymmetric_intCast]
      exact correctRounding_no_step _ _ _ hdist
  · -- no correction: the first application lands on k * s, a fixed point
    have heq : correctRounding ((k : ℚ) * s) c s = (k : ℚ) * s :=
      correctRounding_id _ _ _ hfar
    rw [hr1, heq, roundValue_eq _ c s hs0, mul_div_cancel_right₀ _ hs0,
      roundSymmetric_intCast]
    exact heq

/-- C4, witness: idempotence at v = 12, c = 8, s = 4 (the rounded value is
12 and rounding it again gives 12). -/
theorem roundValue_idempotent_near_witness :
    roundValue (roundValue 12 8 4) 8 4 = roundValue 12 8 4 :=
  roundValue_idempotent_near 12 8 4 (by norm_num)
    (by rw [show (12 : ℚ) - 8 = 4 by norm_num,
          abs_of_nonneg (by norm_num : (0:ℚ) ≤ 4)])

/-! ## Timer helper lemmas (for the number spinner) -/

/-- The `emitKeyState` only records emissions. -/
theorem emitKeyState_fields (s : SpinnerState) (code : Nat) (isDown : Bool) :
    (emitKeyState s code isDown).avh = s.avh ∧
    (emitKeyState s code isDown).timerRunning = s.timerRunning ∧
    (emitKeyState s code isDown).timerElapsed = s.timerElapsed ∧
    (emitKeyState s code isDown).delay = s.delay ∧
    (emitKeyState s code isDown).interval = s.interval ∧
    (emitKeyState s code isDown).timerCallbacks = s.timerCallbacks ∧
    (emitKeyState s code isDown).callbackFires = s.callbackFires ∧
    (emitKeyState s code isDown).downCallback = s.downCallback ∧
    (emitKeyState s code isDown).runningTimerCallbackKeyCode =
      s.runningTimerCallbackKeyCode := by
  unfold emitKeyState
  split_ifs <;> simp

/-- The `accessibleNumberSpinnerHandleKeyDown` only touches the value-handler
state and the emission records. -/
theorem spinnerHandleKeyDown_timer (s : SpinnerState) (ev : KeyEvent) :
    (spinnerHandleKeyDown s ev).timerRunning = s.timerRunning ∧
    (spinnerHandleKeyDown s ev).timerElapsed = s.timerElapsed ∧
    (spinnerHandleKeyDown s ev).delay = s.delay ∧
    (spinnerHandleKeyDown s ev).interval = s.interval ∧
    (spinnerHandleKeyDown s ev).timerCallbacks = s.timerCallbacks ∧
    (spinnerHandleKeyDown s ev).callbackFires = s.callbackFires := by
  unfold spinnerHandleKeyDown
  have h := emitKeyState_fields { s with avh := handleKeyDown s.avh ev } ev.keyCode true
  exact ⟨h.2.1, h.2.2.1, h.2.2.2.1, h.2.2.2.2.1, h.2.2.2.2.2.1, h.2.2.2.2.2.2.1⟩

/-- Firing a list of callbacks preserves the timer bookkeeping. -/
theorem foldl_spinnerHandleKeyDown_timer (cbs : List KeyEvent) (s : SpinnerState) :
    (cbs.foldl spinnerHandleKeyDown s).timerRunning = s.timerRunning ∧
    (cbs.foldl spinnerHandleKeyDown s).timerElapsed = s.timerElapsed ∧
    (cbs.foldl spinnerHandleKeyDown s).delay = s.delay ∧
    (cbs.foldl spinnerHandleKeyDown s).interval = s.interval ∧
    (cbs.foldl spinnerHandleKeyDown s).timerCallbacks = s.timerCallbacks ∧
    (cbs.foldl spinnerHandleKeyDown s).callbackFires = s.callbackFires := by
  induction cbs generalizing s with
  | nil => simp
  | cons cb rest ih =>
    simp only [List.foldl_cons]
    have h1 := spinnerHandleKeyDown_timer s cb
    have h2 := ih (spinnerHandleKeyDown s cb)
    exact ⟨h2.1.trans h1.1, (h2.2.1).trans h1.2.1, (h2.2.2.1).trans h1.2.2.1,
      (h2.2.2.2.1).trans h1.2.2.2.1, (h2.2.2.2.2.1).trans h1.2.2.2.2.1,
      (h2.2.2.2.2.2).trans h1.2.2.2.2.2⟩

/-- One tick of a running timer: the timer keeps running, time advances by
one, and the fire counter increments exactly at the fire instants. -/
theorem spinnerTick_running (s : SpinnerState) (h : s.timerRunning = true) :
    (spinnerTick s).timerRunning = true ∧
    (spinnerTick s).timerElapsed = s.timerElapsed + 1 ∧
    (spinnerTick s).delay = s.delay ∧
    (spinnerTick s).interval = s.interval ∧
    (spinnerTick s).timerCallbacks = s.timerCallbacks ∧
    (spinnerTick s).callbackFires = s.callbackFires +
      (if s.delay ≤ s.timerElapsed + 1 ∧
          (s.timerElapsed + 1 - s.delay) % s.interval = 0 then 1 else 0) := by
  unfold spinnerTick
  rw [if_pos h]
  by_cases hc : s.delay ≤ s.timerElapsed + 1 ∧
      (s.timerElapsed + 1 - s.delay) % s.interval = 0
  · rw [if_pos hc, if_pos hc]
    have hf := foldl_spinnerHandleKeyDown_timer s.timerCallbacks
      { s with timerElapsed := s.timerElapsed + 1 }
    exact ⟨hf.1.trans h, hf.2.1, hf.2.2.1, hf.2.2.2.1, hf.2.2.2.2.1, rfl⟩
  · rw [if_neg hc, if_neg hc]
    exact ⟨h, rfl, rfl, rfl, rfl, by simp⟩

/-- One more millisecond adds a fire exactly at `delay`, `delay + interval`,
`delay + 2 * interval`, ....  (Arithmetic recurrence of `timerFireCount`.) -/
theorem timerFireCount_succ (D I n : Nat) (_hI : 0 < I) (hD : 0 < D) :
    timerFireCount D I (n + 1) =
      timerFireCount D I n +
        (if D ≤ n + 1 ∧ (n + 1 - D) % I = 0 then 1 else 0) := by
  unfold timerFireCount
  rcases lt_trichotomy (n + 1) D with h | h | h
  · rw [if_pos h, if_pos (by omega), if_neg (by omega)]
  · subst h
    rw [if_neg (lt_irrefl _), if_pos (Nat.lt_succ_self n), Nat.sub_self,
      if_pos ⟨le_refl _, Nat.zero_mod I⟩, Nat.zero_div]
  · have hsub : n + 1 - D = (n - D) + 1 := by omega
    rw [if_neg (by omega), if_neg (by omega), hsub, Nat.succ_div]
    have hiff : I ∣ (n - D + 1) ↔ (n - D + 1) % I = 0 :=
      Nat.dvd_iff_mod_eq_zero
    by_cases hd : (n - D + 1) % I = 0
    · rw [if_pos (hiff.mpr hd), if_pos ⟨by omega, hd⟩]
    · rw [if_neg (fun hdvd => hd (hiff.mp hdvd)), if_neg (fun hc => hd hc.2)]

/-- Running the timer for `n` milliseconds from a fresh start fires it
`timerFireCount delay interval n` times. -/
theorem spinnerTicks_fires (s : SpinnerState) (n : Nat) (hr : s.timerRunning = true)
    (he : s.timerElapsed = 0) (hI : 0 < s.interval) (hD : 0 < s.delay) :
    (spinnerTicks n s).timerRunning = true ∧
    (spinnerTicks n s).timerElapsed = n ∧
    (spinnerTicks n s).delay = s.delay ∧
    (spinnerTicks n s).interval = s.interval ∧
    (spinnerTicks n s).timerCallbacks = s.timerCallbacks ∧
    (spinnerTicks n s).callbackFires =
      s.callbackFires + timerFireCount s.delay s.interval n := by
  induction n with
  | zero =>
    refine ⟨hr, he, rfl, rfl, rfl, ?_⟩
    unfold timerFireCount
    rw [if_pos hD, Nat.add_zero]
    simp only [spinnerTicks]
  | succ n ih =>
    obtain ⟨ihr, ihe, ihD, ihI, ihcb, ihf⟩ := ih
    have ht := spinnerTick_running (spinnerTicks n s) ihr
    simp only [spinnerTicks]
    refine ⟨ht.1, ?_, ?_, ?_, ?_, ?_⟩
    · rw [ht.2.1, ihe]
    · rw [ht.2.2.1, ihD]
    · rw [ht.2.2.2.1, ihI]
    · rw [ht.2.2.2.2.1, ihcb]
    · rw [ht.2.2.2.2.2, ihf, ihe, ihD, ihI,
        timerFireCount_succ s.delay s.interval n hI hD, Nat.add_assoc]

/-- The `isRangeKey` codes are never the shift key. -/
theorem isRangeKey_ne_shift {c : Nat} (h : isRangeKey c = true) :
    (c == KEY_SHIFT) = false := by
  rcases isRangeKey_cases h with h | h | h | h | h | h | h | h <;> subst h <;> rfl

/-- Releasing the only held range key fires the end-of-interaction callback. -/
theorem handleKeyUp_single_key (s : AVHState) (ev : KeyEvent)
    (hen : s.enabled = true) (hkeys : s.rangeKeysDown = [ev.keyCode])
    (hrange : isRangeKey ev.keyCode = true) :
    (handleKeyUp s ev).endChangeCount = s.endChangeCount + 1 := by
  unfold handleKeyUp
  rw [isRangeKey_ne_shift hrange]
  simp [allKeysUp, hkeys, hen, hrange]

/-! ## Claim C7: key repetition of the accessible number spinner -/

/-- A concrete spinner state used as witness: a running timer started by a
right-arrow keydown with the default delay 400 ms and interval 100 ms. -/
def exampleSpinner : SpinnerState where
  avh := exampleState
  timerRunning := true
  timerElapsed := 0
  delay := 400
  interval := 100
  timerCallbacks := [⟨KEY_RIGHT_ARROW, false⟩]
  downCallback := some ⟨KEY_RIGHT_ARROW, false⟩
  runningTimerCallbackKeyCode := some KEY_RIGHT_ARROW
  callbackFires := 0
  incrementEmits := [true]
  decrementEmits := []

/-- C7: (1) a range-key keydown while enabled and with no running timer
applies the key step once and starts the repeat timer bound to that key;
(2) a freshly started timer fires `timerFireCount delay interval n` times in
`n` milliseconds, i.e. once after the initial delay and then at every
interval; (3) each fire re-applies the held key's step through
`handleKeyDown`; (4) a keyup with the running key's code stops the
repetition, and releasing the only held key fires the end-of-interaction
callback; (5) a blur while a key is held stops the repetition and fires the
end-of-interaction callback. -/
theorem spinner_key_repeat :
    (∀ (s : SpinnerState) (ev : KeyEvent),
      s.avh.enabled = true → isRangeKey ev.keyCode = true → s.timerRunning = false →
      (spinnerKeydown s ev).avh = handleKeyDown s.avh ev ∧
      (spinnerKeydown s ev).timerRunning = true ∧
      (spinnerKeydown s ev).timerElapsed = 0 ∧
      (spinnerKeydown s ev).runningTimerCallbackKeyCode = some ev.keyCode ∧
      (spinnerKeydown s ev).timerCallbacks = s.timerCallbacks ++ [ev]) ∧
    (∀ (s : SpinnerState) (n : Nat),
      s.timerRunning = true → s.timerElapsed = 0 → 0 < s.interval → 0 < s.delay →
      (spinnerTicks n s).callbackFires =
        s.callbackFires + timerFireCount s.delay s.interval n) ∧
    (∀ (s : SpinnerState) (ev : KeyEvent),
      s.timerRunning = true → s.timerCallbacks = [ev] →
      s.delay ≤ s.timerElapsed + 1 → (s.timerElapsed + 1 - s.delay) % s.interval = 0 →
      (spinnerTick s).avh = handleKeyDown s.avh ev) ∧
    (∀ (s : SpinnerState) (ev : KeyEvent),
      isRangeKey ev.keyCode = true →
      s.runningTimerCallbackKeyCode = some ev.keyCode →
      (spinnerKeyup s ev).timerRunning = false ∧
      (spinnerKeyup s ev).runningTimerCallbackKeyCode = none ∧
      (s.avh.enabled = true → s.avh.rangeKeysDown = [ev.keyCode] →
        (spinnerKeyup s ev).avh.endChangeCount = s.avh.endChangeCount + 1)) ∧
    (∀ (s : SpinnerState) (cb : KeyEvent),
      s.downCallback = some cb →
      (spinnerBlur s).timerRunning = false ∧
      (anyKeysDown s.avh = true →
        (spinnerBlur s).avh.endChangeCount = s.avh.endChangeCount + 1)) := by
  refine ⟨?_, ?_, ?_, ?_, ?_⟩
  · intro s ev hen hkey hnr
    unfold spinnerKeydown spinnerHandleKeyDown emitKeyState
    simp only [hen, hkey, hnr, Bool.not_false, if_true, ite_true]
    split_ifs <;> simp
  · intro s n hr he hI hD
    exact (spinnerTicks_fires s n hr he hI hD).2.2.2.2.2
  · intro s ev hr hcb hd hm
    have hcond : s.delay ≤ s.timerElapsed + 1 ∧
        (s.timerElapsed + 1 - s.delay) % s.interval = 0 := ⟨hd, hm⟩
    unfold spinnerTick spinnerHandleKeyDown emitKeyState
    simp only [hr, if_true, ite_true, hcb, List.foldl_cons, List.foldl_nil]
    rw [if_pos hcond]
    split_ifs <;> simp
  · intro s ev hkey hcode
    have hek := emitKeyState_fields s ev.keyCode false
    refine ⟨?_, ?_, ?_⟩
    · simp [spinnerKeyup, hkey, hcode]
    · simp [spinnerKeyup, hkey, hcode]
    · intro hen hkeys
      have havh : (spinnerKeyup s ev).avh = handleKeyUp (emitKeyState s ev.keyCode false).avh ev := by
        simp [spinnerKeyup, hkey, hcode]
      rw [havh, hek.1]
      exact handleKeyUp_single_key s.avh ev hen hkeys hkey
  · intro s cb hcb
    constructor
    · unfold spinnerBlur
      rw [hcb]
    · intro hany
      have havh : (spinnerBlur s).avh =
          handleBlur (match s.runningTimerCallbackKeyCode with
            | some code => emitKeyState s code false
            | none => s).avh := by
        unfold spinnerBlur
        rw [hcb]
      rw [havh]
      have hava : (match s.runningTimerCallbackKeyCode with
          | some code => emitKeyState s code false
          | none => s).avh = s.avh := by
        cases hrc : s.runningTimerCallbackKeyCode with
        | none => rfl
        | some code => exact (emitKeyState_fields s code false).1
      rw [hava]
      unfold handleBlur
      rw [hany]
      simp

/-- C7, witness: from the concrete running spinner (delay 400 ms, interval
100 ms, fresh start), 600 ms of time produce exactly
`timerFireCount 400 100 600` fires (one at 400 ms and one at each of 500 ms
and 600 ms). -/
theorem spinner_key_repeat_witness :
    (spinnerTicks 600 exampleSpinner).callbackFires =
      exampleSpinner.callbackFires + timerFireCount 400 100 600 :=
  spinner_key_repeat.2.1 exampleSpinner 600 rfl rfl
    (by norm_num [exampleSpinner]) (by norm_num [exampleSpinner])

/-! ## Claim C9: MomentaryButtonModel -/

/-- C9: pressing while enabled sets the value to `valueOn`; pressing while
disabled leaves the value unchanged; releasing sets the value to `valueOff`
regardless of enabledness; and an external set of the value property that
changes the value leaves `downProperty` equal to
`valueProperty.value === valueOn`. -/
theorem momentary_button_model (V : Type) [DecidableEq V] (valueOff valueOn : V)
    (s : MomentaryState V) :
    (s.down = false → s.enabled = true →
      (momentaryUserSetDown valueOff valueOn s true).value = valueOn) ∧
    (s.down = false → s.enabled = false →
      (momentaryUserSetDown valueOff valueOn s true).value = s.value) ∧
    (s.down = true →
      (momentaryUserSetDown valueOff valueOn s false).value = valueOff) ∧
    (∀ v : V, s.value ≠ v →
      (momentaryExternalSetValue valueOff valueOn s v).down =
        ((momentaryExternalSetValue valueOff valueOn s v).value == valueOn)) := by
  obtain ⟨val, down, enabled⟩ := s
  refine ⟨?_, ?_, ?_, ?_⟩
  · rintro rfl rfl
    by_cases hval : val = valueOn <;>
      simp [momentaryUserSetDown, momSetDown, momSetValue, hval]
  · rintro rfl rfl
    simp [momentaryUserSetDown, momSetDown, momSetValue]
  · rintro rfl
    by_cases hval : val = valueOff
    · simp [momentaryUserSetDown, momSetDown, momSetValue, hval]
    · by_cases hoo : valueOff = valueOn
      · cases enabled <;>
          · simp only [momentaryUserSetDown, momSetDown, momSetValue, hval, hoo]
            split_ifs <;> simp_all
      · simp [momentaryUserSetDown, momSetDown, momSetValue, hval, hoo]
  · intro v hvne
    by_cases hon : v = valueOn
    · subst hon
      cases down <;> cases enabled <;>
        simp [momentaryExternalSetValue, momSetValue, momSetDown, hvne]
    · by_cases hoff : v = valueOff
      · subst hoff
        cases down <;> cases enabled <;>
          simp [momentaryExternalSetValue, momSetValue, momSetDown, hvne, hon]
      · by_cases hoo : valueOff = valueOn <;>
          cases down <;> cases enabled <;>
            simp [momentaryExternalSetValue, momSetValue, momSetDown, hvne, hon, hoff, hoo]

/-- C9, witness: over ℕ with valueOff = 0, valueOn = 1: pressing from
(value 0, up, enabled) turns the value on, and externally setting the value
to 1 puts the button down. -/
theorem momentary_button_model_witness :
    (momentaryUserSetDown 0 1 (⟨0, false, true⟩ : MomentaryState ℕ) true).value = 1 ∧
    (momentaryExternalSetValue 0 1 (⟨0, false, true⟩ : MomentaryState ℕ) 1).down =
      ((momentaryExternalSetValue 0 1 (⟨0, false, true⟩ : MomentaryState ℕ) 1).value == 1) :=
  ⟨(momentary_button_model ℕ 0 1 ⟨0, false, true⟩).1 rfl rfl,
   (momentary_button_model ℕ 0 1 ⟨0, false, true⟩).2.2.2 1 (by norm_num)⟩

end Sun
